import Mathlib

/-!
Verification of the genieacs-sim CWMP CPE simulator core against its
specification.  The JavaScript sources (`methods.js`, `service-auth.js` and
the session engine module) are shallowly embedded below: the in-memory device
parameter map becomes an association list, handlers become pure functions on
it, and the callback-driven session/download control flow becomes explicit
step functions on small state records.  The XML codec and the data-model
loader are external collaborators of the source and are kept outside the
embedding boundary: handlers receive already-decoded text and produce
structured response values rather than XML strings.
-/

namespace GenieacsSim

/-! ## String helpers mirroring the JavaScript string primitives

All device paths and header values in the source are ASCII, where JavaScript
UTF-16 code-unit indexing coincides with character indexing, so strings are
handled through their character lists.
-/

/-- `listStartsWith l pat` is `true` when `pat` is an initial segment of `l`
(character-list version of JavaScript `String.prototype.startsWith`). -/
def listStartsWith : List Char → List Char → Bool
  | _, [] => true
  | [], _ :: _ => false
  | c :: cs, p :: ps => c == p && listStartsWith cs ps

/-- JavaScript `s.startsWith(pat)`. -/
def jsStartsWith (s pat : String) : Bool :=
  listStartsWith s.toList pat.toList

/-- First index `j` with `cs.get? j = some c`, or `none`
(JavaScript `indexOf` on a character list). -/
def firstIdxFrom : List Char → Char → Option Nat
  | [], _ => none
  | x :: xs, c => if x = c then some 0 else (firstIdxFrom xs c).map (· + 1)

/-- JavaScript `p.indexOf(c, start)`: index of the first occurrence of `c` in
`p` at position `start` or later (`none` models the return value `-1`). -/
def indexOfFrom (p : String) (c : Char) (start : Nat) : Option Nat :=
  (firstIdxFrom (p.toList.drop start) c).map (· + start)

/-- JavaScript `p.slice(i)` for `0 ≤ i`. -/
def sliceFrom (p : String) (i : Nat) : String :=
  String.mk (p.toList.drop i)

/-- JavaScript `p.slice(-1)`: the last character of `p` as a string
(empty for the empty string). -/
def lastCharStr (p : String) : String :=
  match p.toList.getLast? with
  | some c => String.mk [c]
  | none => ""

/-- Lexicographic comparison of character lists by code point, matching the
ordering of JavaScript's default `Array.prototype.sort` on ASCII strings. -/
def charsLe : List Char → List Char → Bool
  | [], _ => true
  | _ :: _, [] => false
  | a :: as, b :: bs => if a = b then charsLe as bs else decide (a < b)

/-- String comparison used by the sorted-path cache. -/
def strLeB (a b : String) : Bool := charsLe a.toList b.toList

/-- Insert a string into a sorted list, keeping it sorted. -/
def insertSorted (x : String) : List String → List String
  | [] => [x]
  | y :: rest => if strLeB x y then x :: y :: rest else y :: insertSorted x rest

/-- Insertion sort by `strLeB`, modelling JavaScript `Array.prototype.sort()`
on ASCII strings. -/
def sortStrings : List String → List String
  | [] => []
  | x :: rest => insertSorted x (sortStrings rest)

/-- ASCII lower-casing of a character, as JavaScript `toLowerCase` acts on the
ASCII range. -/
def asciiLower (c : Char) : Char :=
  if 'A' ≤ c ∧ c ≤ 'Z' then Char.ofNat (c.toNat + 32) else c

/-- ASCII upper-casing of a character. -/
def asciiUpper (c : Char) : Char :=
  if 'a' ≤ c ∧ c ≤ 'z' then Char.ofNat (c.toNat - 32) else c

/-- JavaScript `s.toLowerCase()` on ASCII strings. -/
def strToLower (s : String) : String := String.mk (s.toList.map asciiLower)

/-- JavaScript `s.toUpperCase()` on ASCII strings. -/
def strToUpper (s : String) : String := String.mk (s.toList.map asciiUpper)

/-- Split a string at every occurrence of the character `c`, keeping empty
segments, as JavaScript `s.split(c)` does. -/
def splitOnCharAux (c : Char) : List Char → List Char → List String
  | [], acc => [String.mk acc.reverse]
  | x :: xs, acc =>
    if x = c then String.mk acc.reverse :: splitOnCharAux c xs []
    else splitOnCharAux c xs (x :: acc)

/-- JavaScript `s.split(c)` for a single-character separator. -/
def splitOnChar (s : String) (c : Char) : List String :=
  splitOnCharAux c s.toList []

/-- Left-pad a string with `'0'` to a minimum length of 8, mirroring
`String(nc).padStart(8, "0")` in `service-auth.js`. -/
def padZeros8 (s : String) : String :=
  String.mk (List.replicate (8 - s.length) '0') ++ s

/-- The zero-padded 8-digit lowercase hexadecimal representation of `n`;
this is what the specification's phrase "zero-padded 8-hex" denotes. -/
def hexPad8 (n : Nat) : String :=
  padZeros8 (String.mk (Nat.toDigits 16 n))

/-- JavaScript `parseInt(s, 10)` restricted to the shapes the simulator meets:
the longest leading run of decimal digits, `none` modelling `NaN`. -/
def jsParseIntDec (s : String) : Option Nat :=
  let ds := s.toList.takeWhile Char.isDigit
  if ds.isEmpty then none
  else some (ds.foldl (fun a c => a * 10 + (c.toNat - 48)) 0)

/-! ## Parameter store (component B)

A device parameter is stored in the source as an array
`[writable]` (object nodes) or `[writable, value, xsdType]` (leaves); the two
optional slots are modelled with `Option`.
-/

/-- One entry of the device parameter map:
`(writable, value, xsd-type)`, with `none` for absent array slots. -/
structure Param where
  writable : Bool
  value : Option String
  ty : Option String
  deriving Repr, DecidableEq

/-- The device parameter map: path → parameter, in insertion order, as a
JavaScript object holds it. -/
abbrev ParamMap := List (String × Param)

/-- First-match lookup, as JavaScript property access on the device object
(keys are unique in practice; on duplicates the first entry wins). -/
def lookupParam : ParamMap → String → Option Param
  | [], _ => none
  | kv :: rest, k => if kv.1 = k then some kv.2 else lookupParam rest k

/-- JavaScript property assignment `device[k] = v`: replaces the value at an
existing key in place, otherwise appends the new key. -/
def setParam : ParamMap → String → Param → ParamMap
  | [], k, v => [(k, v)]
  | kv :: rest, k, v =>
    if kv.1 = k then (k, v) :: rest else kv :: setParam rest k v

/-- The device state carried by the handlers: the parameter map plus the
private `_sortedPaths` cache (other `_`-prefixed private fields of the source
are modelled separately by the state records below). -/
structure Device where
  params : ParamMap
  sortedPathsCache : Option (List String)
  deriving Repr, DecidableEq

/-- Root names excluded from `getSortedPaths` (from `methods.js`). -/
def ignoreRoots : List String :=
  ["DeviceID", "Downloads", "Tags", "Events", "Reboot", "FactoryReset",
   "VirtualParameters"]

/-- The root of a path: the segment before the first dot
(`p.split(".")[0]`). -/
def rootOf (p : String) : String :=
  String.mk (p.toList.takeWhile (fun c => ¬ c = '.'))

/-- Filter of `getSortedPaths`: drop private keys (leading `_`) and the
ignored roots. -/
def visiblePath (p : String) : Bool :=
  !(jsStartsWith p "_") && !(ignoreRoots.contains (rootOf p))

/-- Sorted visible paths computed from the parameter map. -/
def computeSortedPaths (d : ParamMap) : List String :=
  sortStrings ((d.map Prod.fst).filter visiblePath)

/-- `getSortedPaths(device)` from `methods.js`: return the cached sorted path
list, or compute, cache and return it. -/
def getSortedPaths (dev : Device) : List String × Device :=
  match dev.sortedPathsCache with
  | some ps => (ps, dev)
  | none =>
    let ps := computeSortedPaths dev.params
    (ps, { dev with sortedPathsCache := some ps })

/-! ## RPC responses and transfer records

Response bodies are produced in the source through the external `xml-utils`
node builder; they are modelled structurally.
-/

/-- Structured view of the response bodies built by the method handlers. -/
inductive MethodResponse where
  | addObjectResponse (instanceNumber status : String)
  | deleteObjectResponse (status : String)
  | setParameterValuesResponse (status : String)
  | getParameterNamesResponse (list : List (String × Option Bool))
  | downloadResponse (status startTime completeTime : String)
  | rebootResponse
  | factoryResetResponse
  | cwmpFault (faultCode faultString : String)
  deriving Repr, DecidableEq

/-- A record of the pending-transfers FIFO of `methods.js`
(`{commandKey, startTime, faultCode, faultString}`); times are abstract
timestamps. -/
structure TransferRecord where
  commandKey : Option String
  startTime : Nat
  faultCode : String
  faultString : String
  deriving Repr, DecidableEq

/-- `queueTransferComplete` from `methods.js`: push a record, defaulting an
empty fault code to `"0"` (success). -/
def queueTransferComplete (q : List TransferRecord) (ck : Option String)
    (startTime : Nat) (faultCode faultString : String) : List TransferRecord :=
  q ++ [{ commandKey := ck, startTime,
          faultCode := if faultCode = "" then "0" else faultCode,
          faultString }]

/-! ## Method handlers (component F) -/

/-- `GetParameterNames` filter for `NextLevel = true`, exactly as the loop
condition in `methods.js` lines 244-251: keep `p` when `parameterPath` is a
proper prefix with at least two extra characters and the first dot at or after
index `|parameterPath| + 1` is absent or is the final character. -/
def gpnKeepNext (parameterPath p : String) : Bool :=
  jsStartsWith p parameterPath && decide (parameterPath.length + 1 < p.length) &&
    (match indexOfFrom p '.' (parameterPath.length + 1) with
     | none => true
     | some j => decide (j = p.length - 1))

/-- The `parameterList` accumulation loop of `GetParameterNames`. -/
def gpnSelect (parameterPath : String) (nextLevel : Bool) : List String → List String
  | [] => []
  | p :: rest =>
    if nextLevel then
      if gpnKeepNext parameterPath p then p :: gpnSelect parameterPath nextLevel rest
      else gpnSelect parameterPath nextLevel rest
    else
      if jsStartsWith p parameterPath then p :: gpnSelect parameterPath nextLevel rest
      else gpnSelect parameterPath nextLevel rest

/-- The list of parameter names returned by `GetParameterNames`. -/
def gpnNames (dev : Device) (parameterPath : String) (nextLevel : Bool) : List String :=
  gpnSelect parameterPath nextLevel (getSortedPaths dev).1

/-- `GetParameterNames(device, request)`: the request fields are already
extracted from the envelope.  Each result pairs the path with the stored
writable flag (`device[p][0]`). -/
def GetParameterNames (dev : Device) (parameterPath : String) (nextLevel : Bool) :
    Device × MethodResponse :=
  let dev' := (getSortedPaths dev).2
  let names := gpnNames dev parameterPath nextLevel
  (dev', .getParameterNamesResponse
    (names.map (fun p => (p, (lookupParam dev'.params p).map Param.writable))))

/-- Update one `(name, value, type)` triple in place, as the assignments
`device[name][1] = …; device[name][2] = …` do (every entry at that key is
rewritten; the writable slot is untouched). -/
def updateParam1 : ParamMap → String → String → String → ParamMap
  | [], _, _, _ => []
  | kv :: rest, n, v, t =>
    (if kv.1 = n then (kv.1, ⟨kv.2.writable, some v, some t⟩) else kv) ::
      updateParam1 rest n v t

/-- Sequential application of all the request's `(name, value, type)`
triples. -/
def applyPVs (d : ParamMap) (pvs : List (String × String × String)) : ParamMap :=
  pvs.foldl (fun acc x => updateParam1 acc x.1 x.2.1 x.2.2) d

/-- `SetParameterValues(device, request)`: values arrive entity-decoded (the
codec is external).  Naming a parameter absent from the map makes the source
throw a `TypeError`, modelled by the `error` branch. -/
def SetParameterValues (d : ParamMap) :
    List (String × String × String) → Except String (ParamMap × MethodResponse)
  | [] => .ok (d, .setParameterValuesResponse "0")
  | x :: rest =>
    if (lookupParam d x.1).isSome then
      SetParameterValues (updateParam1 d x.1 x.2.1 x.2.2) rest
    else .error ("TypeError: cannot read property of undefined for " ++ x.1)

/-- Type-appropriate default values used by `AddObject`
(`defaultValues[type] || ""`). -/
def defaultValue : Option String → String
  | some "xsd:boolean" => "false"
  | some "xsd:int" => "0"
  | some "xsd:unsignedInt" => "0"
  | some "xsd:dateTime" => "0001-01-01T00:00:00Z"
  | _ => ""

/-- The `while (device[objectName + i + "."]) i += 1` search, with enough
fuel to reach the first free instance number. -/
def freshInstanceAux (d : ParamMap) (objectName : String) : Nat → Nat → Nat
  | 0, i => i
  | fuel + 1, i =>
    if (lookupParam d (objectName ++ Nat.repr i ++ ".")).isSome then
      freshInstanceAux d objectName fuel (i + 1)
    else i

/-- The instance number picked by `AddObject`: the smallest positive `i` such
that `objectName + i + "."` is not a key. -/
def freshInstance (d : ParamMap) (objectName : String) : Nat :=
  freshInstanceAux d objectName (d.length + 1) 1

/-- The instance number in `AddObject`'s response. -/
def addObjectInstance (dev : Device) (objectName : String) : Nat :=
  freshInstance dev.params objectName

/-- The parameter map right after `device[objectName + i + "."] = [true]`. -/
def addObjectBase (dev : Device) (objectName : String) : ParamMap :=
  setParam dev.params
    (objectName ++ Nat.repr (addObjectInstance dev objectName) ++ ".")
    ⟨true, none, none⟩

/-- The path list `AddObject` iterates: `getSortedPaths(device)` evaluated on
the device that already holds the new instance object node. -/
def addObjectPaths (dev : Device) (objectName : String) : List String :=
  (getSortedPaths { params := addObjectBase dev objectName,
                    sortedPathsCache := dev.sortedPathsCache }).1

/-- The suffix `p.slice(p.indexOf(".", objectName.length))` appended to the
new instance prefix: from the first dot at or after index `|objectName|`, or
(JavaScript `slice(-1)`) the final character when no such dot exists. -/
def addObjectSuffix (objectName p : String) : String :=
  match indexOfFrom p '.' objectName.length with
  | some j => sliceFrom p j
  | none => lastCharStr p

/-- The key `AddObject` derives from a template path `p`. -/
def addObjectNewKey (dev : Device) (objectName p : String) : String :=
  objectName ++ Nat.repr (addObjectInstance dev objectName) ++ addObjectSuffix objectName p

/-- One iteration of `AddObject`'s copy loop over a template path `p`. -/
def addObjectStep (objectName : String) (i : Nat) (acc : ParamMap) (p : String) :
    ParamMap :=
  if jsStartsWith p objectName = true ∧ objectName.length < p.length then
    match lookupParam acc p with
    | none => acc
    | some tpl =>
      if (lookupParam acc (objectName ++ Nat.repr i ++ addObjectSuffix objectName p)).isSome
      then acc
      else acc ++ [(objectName ++ Nat.repr i ++ addObjectSuffix objectName p,
        ⟨tpl.writable, some (defaultValue tpl.ty), tpl.ty⟩)]
  else acc

/-- The full copy loop of `AddObject`. -/
def addObjectCopies (objectName : String) (i : Nat) (base : ParamMap)
    (paths : List String) : ParamMap :=
  paths.foldl (addObjectStep objectName i) base

/-- `AddObject(device, request)`: pick the first free instance number, create
the instance object node, copy every template entry under `objectName` to the
new instance with type-appropriate defaults, drop the sorted-path cache and
respond `InstanceNumber, Status=0`. -/
def AddObject (dev : Device) (objectName : String) : Device × MethodResponse :=
  let i := addObjectInstance dev objectName
  ({ params := addObjectCopies objectName i (addObjectBase dev objectName)
                 (addObjectPaths dev objectName),
     sortedPathsCache := none },
   .addObjectResponse (Nat.repr i) "0")

/-- `DeleteObject(device, request)`: delete every key with the requested
prefix, drop the sorted-path cache, respond `Status=0`. -/
def DeleteObject (dev : Device) (objectName : String) : Device × MethodResponse :=
  ({ params := dev.params.filter (fun kv => !(jsStartsWith kv.1 objectName)),
     sortedPathsCache := none },
   .deleteObjectResponse "0")

/-! ## Download handler and download worker (component G) -/

/-- The recognized `FileType` values (`validFileTypes` in `methods.js`). -/
def validFileTypes : List String :=
  ["1 Firmware Upgrade Image", "2 Web Content", "3 Vendor Configuration File",
   "4 Tone File", "5 Ringer File"]

/-- The firmware file type string. -/
def firmwareFileType : String := "1 Firmware Upgrade Image"

/-- The fields of a `cwmp:Download` request, entity-decoded; `none` models an
absent element (the corresponding `dwInfo` field stays `null`). -/
structure DownloadRequest where
  commandKey : Option String
  url : Option String
  fileType : Option String
  username : Option String
  password : Option String
  deriving Repr, DecidableEq

/-- Which HTTP module the asynchronous GET is started with. -/
inductive DlScheme where
  | http
  | https
  deriving Repr, DecidableEq

/-- The externally visible effects of a successful (non-throwing) run of the
synchronous part of the `Download` handler. -/
structure DownloadEffects where
  response : MethodResponse
  queued : List TransferRecord
  scheduled : List (Nat × String)
  started : Option DlScheme
  deriving Repr, DecidableEq

/-- Delay before a TransferComplete session is started
(`transferCompleteDelayMs` in `methods.js`). -/
def transferCompleteDelayMs : Nat := 500

/-- Event string of a TransferComplete session. -/
def transferCompleteEvent : String := "7 TRANSFER COMPLETE"

/-- `Download(device, request)`: the synchronous part of the handler.  The
first component is the final value of `device._downloadInProgress`; the
second is either the produced response together with queued transfer records,
scheduled session timers and the started GET, or the uncaught exception the
source raises (reading `startsWith` of `null` when no URL element is
present) — in that case no response is ever sent. -/
def Download (downloadInProgress : Bool) (startTime : Nat) (req : DownloadRequest) :
    Bool × Except String DownloadEffects :=
  let missingFT := (downloadInProgress,
    Except.ok (⟨.cwmpFault "9003" "Invalid arguments - FileType is required",
      [], [], none⟩ : DownloadEffects))
  match req.fileType with
  | none => missingFT
  | some ft =>
    if ft = "" then missingFT
    else if ¬ validFileTypes.contains ft then
      (downloadInProgress,
       .ok ⟨.cwmpFault "9003" ("Invalid arguments - FileType '" ++ ft ++ "' not supported"),
         [], [], none⟩)
    else if ft = firmwareFileType ∧ downloadInProgress then
      (downloadInProgress,
       .ok ⟨.cwmpFault "9010" "File transfer already in progress", [], [], none⟩)
    else
      let dip1 := if ft = firmwareFileType then true else downloadInProgress
      match req.url with
      | none =>
        (dip1, .error "TypeError: Cannot read properties of null (reading 'startsWith')")
      | some u =>
        let okResp : MethodResponse :=
          .downloadResponse "1" "0001-01-01T00:00:00Z" "0001-01-01T00:00:00Z"
        if jsStartsWith u "http://" then (dip1, .ok ⟨okResp, [], [], some .http⟩)
        else if jsStartsWith u "https://" then (dip1, .ok ⟨okResp, [], [], some .https⟩)
        else
          let dip2 := if ft = firmwareFileType then false else dip1
          (dip2, .ok ⟨okResp,
            queueTransferComplete [] req.commandKey startTime "9016" "Invalid URL scheme",
            [(transferCompleteDelayMs, transferCompleteEvent)], none⟩)

/-- The state the asynchronous download worker can touch: the private device
flags, the pending-transfers FIFO and the `setTimeout(startSession …)` timers
it creates. -/
structure DlState where
  downloadInProgress : Bool
  activeDownloadRequest : Bool
  pendingReboot : Bool
  firmwareUpgrade : Bool
  queue : List TransferRecord
  scheduled : List (Nat × String)
  deriving Repr, DecidableEq

/-- The events that can settle one `downloadFile` attempt. -/
inductive DlEvent where
  /-- Entry check `dwInfo.attempts > 5`. -/
  | tooManyAttempts
  /-- A 401 response carrying a recognized Basic challenge. -/
  | challenge401Basic
  /-- A 401 response carrying a recognized Digest challenge. -/
  | challenge401Digest
  /-- Any other status than 200 once auth handling is exhausted. -/
  | statusNon200 (code : Nat)
  /-- Status 200 and the body stream ended. -/
  | bodyEnd
  /-- A socket error with the given message. -/
  | socketError (msg : String)
  /-- The per-attempt timeout fired. -/
  | timeoutFired
  deriving Repr, DecidableEq

/-- Terminal events: everything except an auth challenge (which retries). -/
def DlEvent.isTerminal : DlEvent → Bool
  | .challenge401Basic => false
  | .challenge401Digest => false
  | _ => true

/-- Continuation of a `downloadFile` attempt. -/
inductive DlAction where
  | settled
  | retryDownload
  deriving Repr, DecidableEq

/-- One settling step of `downloadFile(device, commandKey, startTime, …)` from
`methods.js`, branch for branch: the retry-cap check queues fault 9010
`"Too many attempts"` and returns; an auth challenge destroys the request and
retries; every other event queues its transfer record and schedules a
TransferComplete session 500 ms later, clearing the firmware mutex and the
cancel handle exactly where the source does. -/
def downloadFileStep (fileType : Option String) (ck : Option String) (startTime : Nat)
    (ev : DlEvent) (st : DlState) : DlState × DlAction :=
  match ev with
  | .tooManyAttempts =>
    ({ st with queue := queueTransferComplete st.queue ck startTime "9010" "Too many attempts" },
     .settled)
  | .challenge401Basic => (st, .retryDownload)
  | .challenge401Digest => (st, .retryDownload)
  | .statusNon200 code =>
    ({ st with
        queue := queueTransferComplete st.queue ck startTime "9010"
                   ("Server returned code " ++ Nat.repr code),
        scheduled := st.scheduled ++ [(transferCompleteDelayMs, transferCompleteEvent)] },
     .settled)
  | .bodyEnd =>
    let firmware := fileType = some firmwareFileType
    ({ st with
        downloadInProgress := if firmware then false else st.downloadInProgress,
        activeDownloadRequest := false,
        queue := queueTransferComplete st.queue ck startTime "0" "",
        pendingReboot := if firmware then true else st.pendingReboot,
        firmwareUpgrade := if firmware then true else st.firmwareUpgrade,
        scheduled := st.scheduled ++ [(transferCompleteDelayMs, transferCompleteEvent)] },
     .settled)
  | .socketError msg =>
    ({ st with
        downloadInProgress := if fileType = some firmwareFileType then false
                              else st.downloadInProgress,
        activeDownloadRequest := false,
        queue := queueTransferComplete st.queue ck startTime "9010" msg,
        scheduled := st.scheduled ++ [(transferCompleteDelayMs, transferCompleteEvent)] },
     .settled)
  | .timeoutFired =>
    ({ st with
        downloadInProgress := if fileType = some firmwareFileType then false
                              else st.downloadInProgress,
        activeDownloadRequest := false,
        queue := queueTransferComplete st.queue ck startTime "9010" "Download timeout",
        scheduled := st.scheduled ++ [(transferCompleteDelayMs, transferCompleteEvent)] },
     .settled)

/-! ## Auth engine (component C), from `service-auth.js` -/

/-- The digest-challenge fields `generateDigestAuth` reads, with `""` for a
field absent from the parsed `WWW-Authenticate` header. -/
structure DigestParams where
  realm : String
  nonce : String
  qop : String
  opq : String
  algorithm : String
  deriving Repr, DecidableEq

/-- Character class `\w` of the parsing regex. -/
def isWordChar (c : Char) : Bool := c.isAlphanum || c == '_'

/-- Character class `\s` of the parsing regex (the whitespace the simulator
meets). -/
def isSpaceChar (c : Char) : Bool :=
  c == ' ' || c == '\t' || c == '\n' || c == '\r'

/-- The global-regex scan `(\w+)=(?:"([^"]+)"|([^\s,]+))` of
`parseDigestHeader`: at each position try a word-character key followed by
`=`, then a non-empty quoted value or a non-empty run free of whitespace and
commas, resuming after each match and advancing one character on failure. -/
def scanPairs : Nat → List Char → List (String × String)
  | 0, _ => []
  | _, [] => []
  | fuel + 1, c :: rest =>
    if ¬ isWordChar c then scanPairs fuel rest
    else
      let keyCs := (c :: rest).takeWhile isWordChar
      let afterKey := (c :: rest).drop keyCs.length
      let unquoted := fun (v : List Char) =>
        let val := v.takeWhile (fun ch => ¬ isSpaceChar ch ∧ ¬ ch = ',')
        if val.isEmpty then scanPairs fuel rest
        else (String.mk keyCs, String.mk val) :: scanPairs fuel (v.drop val.length)
      match afterKey with
      | '=' :: v =>
        (match v with
         | '"' :: vr =>
           let inside := vr.takeWhile (fun ch => ¬ ch = '"')
           if 0 < inside.length ∧ inside.length < vr.length then
             (String.mk keyCs, String.mk inside) :: scanPairs fuel (vr.drop (inside.length + 1))
           else unquoted v
         | _ => unquoted v)
      | _ => scanPairs fuel rest

/-- `header.replace(/^Digest\s+/i, "")`: strip a case-insensitive `Digest`
prefix followed by at least one whitespace character. -/
def stripDigestPrefix (header : String) : List Char :=
  let cs := header.toList
  if (cs.take 6).map asciiLower = "digest".toList then
    match cs.drop 6 with
    | c :: _ => if isSpaceChar c then (cs.drop 6).dropWhile isSpaceChar else cs
    | [] => cs
  else cs

/-- Last-occurrence lookup: repeated keys overwrite earlier ones in the
parsed-parameters object. -/
def lookupLast (pairs : List (String × String)) (k : String) : Option String :=
  pairs.foldl (fun acc kv => if kv.1 = k then some kv.2 else acc) none

/-- `parseDigestHeader(header)` from `service-auth.js`, projected onto the
fields the generator reads. -/
def parseDigestHeader (header : String) : DigestParams :=
  let stripped := stripDigestPrefix header
  let ps := scanPairs stripped.length stripped
  { realm := (lookupLast ps "realm").getD ""
    nonce := (lookupLast ps "nonce").getD ""
    qop := (lookupLast ps "qop").getD ""
    opq := (lookupLast ps "opaque").getD ""
    algorithm := (lookupLast ps "algorithm").getD "" }

/-- `digestParams.algorithm || "MD5"` in `generateDigestAuth`. -/
def digestAlgorithm (dp : DigestParams) : String :=
  if dp.algorithm = "" then "MD5" else dp.algorithm

/-- The `HA1` of `generateDigestAuth`, with the `MD5-sess` variant. -/
def digestHA1 (md5 : String → String) (username password cnonce : String)
    (dp : DigestParams) : String :=
  if strToUpper (digestAlgorithm dp) = "MD5-SESS" then
    md5 (md5 (username ++ ":" ++ dp.realm ++ ":" ++ password) ++ ":" ++ dp.nonce ++
      ":" ++ cnonce)
  else md5 (username ++ ":" ++ dp.realm ++ ":" ++ password)

/-- The `response` hash of `generateDigestAuth`: with `qop` the
`HA1:nonce:nc:cnonce:qop:HA2` form, else `HA1:nonce:HA2`. -/
def digestResponseHash (md5 : String → String)
    (username password method uri cnonce : String) (dp : DigestParams) (nc : Nat) :
    String :=
  if dp.qop = "auth" ∨ dp.qop = "auth-int" then
    md5 (digestHA1 md5 username password cnonce dp ++ ":" ++ dp.nonce ++ ":" ++
      padZeros8 (Nat.repr nc) ++ ":" ++ cnonce ++ ":" ++ dp.qop ++ ":" ++
      md5 (method ++ ":" ++ uri))
  else
    md5 (digestHA1 md5 username password cnonce dp ++ ":" ++ dp.nonce ++ ":" ++
      md5 (method ++ ":" ++ uri))

/-- The header up to (and including) the conditional `algorithm` and `opaque`
fields (`authHeader` before the `qop` block is appended). -/
def digestHeaderBase (md5 : String → String)
    (username password method uri cnonce : String) (dp : DigestParams) (nc : Nat) :
    String :=
  let h0 := "Digest username=\"" ++ username ++ "\", realm=\"" ++ dp.realm ++
    "\", nonce=\"" ++ dp.nonce ++ "\", uri=\"" ++ uri ++ "\", response=\"" ++
    digestResponseHash md5 username password method uri cnonce dp nc ++ "\""
  let h1 := if digestAlgorithm dp = "" then h0
    else h0 ++ ", algorithm=" ++ digestAlgorithm dp
  if dp.opq = "" then h1 else h1 ++ ", opaque=\"" ++ dp.opq ++ "\""

/-- `generateDigestAuth(username, password, method, uri, digestParams, nc)`
from `service-auth.js`.  `md5` and the random `cnonce` are the two effectful
primitives of the source and are passed in. -/
def generateDigestAuth (md5 : String → String) (username password method uri : String)
    (dp : DigestParams) (cnonce : String) (nc : Nat) : String :=
  if dp.qop = "" then digestHeaderBase md5 username password method uri cnonce dp nc
  else digestHeaderBase md5 username password method uri cnonce dp nc ++
    ", qop=" ++ dp.qop ++ ", nc=" ++ padZeros8 (Nat.repr nc) ++
    ", cnonce=\"" ++ cnonce ++ "\""

/-- The base64 alphabet. -/
def base64Chars : List Char :=
  "ABCDEFGHIJKLMNOPQRSTUVWXYZabcdefghijklmnopqrstuvwxyz0123456789+/".toList

/-- Digit of the base64 alphabet. -/
def b64char (n : Nat) : Char := base64Chars.getD n 'A'

/-- Standard base64 of a byte list (`Buffer.from(...).toString("base64")`). -/
def base64Encode : List Nat → String
  | [] => ""
  | [a] => String.mk [b64char (a / 4), b64char (a % 4 * 16), '=', '=']
  | [a, b] => String.mk [b64char (a / 4), b64char (a % 4 * 16 + b / 16),
      b64char (b % 16 * 4), '=']
  | a :: b :: c :: rest =>
    String.mk [b64char (a / 4), b64char (a % 4 * 16 + b / 16),
      b64char (b % 16 * 4 + c / 64), b64char (c % 64)] ++ base64Encode rest

/-- The private transport/auth state of the device
(`_username`, `_password`, `_digestParams`, `_nonceCount`, `_cookie`). -/
structure AuthState where
  username : String
  password : String
  digestParams : Option DigestParams
  nonceCount : Nat
  cookie : Option String
  deriving Repr, DecidableEq

/-- `getAuthorizationHeader(device, method, uri)` from `service-auth.js`:
empty header without credentials; a digest header (incrementing
`_nonceCount`) when a challenge is cached; Basic otherwise.  Returns the
header together with the updated state. -/
def getAuthorizationHeader (md5 : String → String) (cnonce : String)
    (st : AuthState) (method uri : String) : String × AuthState :=
  if st.username = "" ∨ st.password = "" then ("", st)
  else
    match st.digestParams with
    | some dp =>
      let st' := { st with nonceCount := st.nonceCount + 1 }
      (generateDigestAuth md5 st.username st.password
        (if method = "" then "POST" else method)
        (if uri = "" then "/" else uri) dp cnonce st'.nonceCount, st')
    | none =>
      ("Basic " ++ base64Encode ((st.username ++ ":" ++ st.password).toList.map Char.toNat),
       st)

/-! ## HTTP transport (component D): `sendRequest` response handling -/

/-- The response fields `sendRequest`'s callback reads.  `contentLengthCap`
models `response.headers["Content-Length"]` — the capitalized lookup of the
source. -/
structure HttpResponse where
  statusCode : Nat
  wwwAuthenticate : Option String
  setCookie : Option String
  body : String
  contentLengthCap : Option Nat
  deriving Repr, DecidableEq

/-- What `sendRequest` does once a response has been fully received. -/
inductive SendOutcome where
  /-- Retransmit `body` with the updated auth state (the digest retry). -/
  | retry (st : AuthState) (body : String)
  /-- Deliver the parsed envelope to the callback: `parsedNonEmpty = false`
  means the callback receives `null`. -/
  | deliver (st : AuthState) (parsedNonEmpty : Bool)
  /-- A thrown `Error`, killing the session. -/
  | fatal (msg : String)
  deriving Repr, DecidableEq

/-- The `response.on("end")` handler of `sendRequest`: on 401 with a
(case-insensitively) `digest`-prefixed `WWW-Authenticate`, cache the parsed
challenge, reset `_nonceCount` to 0 and retransmit the identical body; any
other 401 and any non-2xx status throw; otherwise persist `Set-Cookie` and
hand the (possibly empty) envelope to the callback. -/
def sendRequestHandleResponse (st : AuthState) (requestBody : String)
    (resp : HttpResponse) : SendOutcome :=
  if resp.statusCode = 401 then
    match resp.wwwAuthenticate with
    | some w =>
      if jsStartsWith (strToLower w) "digest" then
        .retry { st with digestParams := some (parseDigestHeader w), nonceCount := 0 }
          requestBody
      else .fatal "Authentication failed with status 401"
    | none => .fatal "Authentication failed with status 401"
  else if ¬ resp.statusCode / 100 = 2 then
    .fatal "Unexpected response Code from ACS"
  else
    let nonEmpty := decide (0 < resp.contentLengthCap.getD 0) || decide (0 < resp.body.length)
    let st' := match resp.setCookie with
      | some c => { st with cookie := some c }
      | none => st
    .deliver st' nonEmpty

/-! ## Session engine (component H), from the session module -/

/-- The structured content of `createFaultResponse(code, message)`: a
`soap-env:Fault` with fixed `faultcode`/`faultstring` and a `detail` holding
the `cwmp:Fault`. -/
structure SoapFault where
  faultcode : String
  faultstring : String
  detailFaultCode : String
  detailFaultString : String
  deriving Repr, DecidableEq

/-- `createFaultResponse` from the session module. -/
def createFaultResponse (code message : String) : SoapFault :=
  { faultcode := "Client", faultstring := "CWMP fault",
    detailFaultCode := code, detailFaultString := message }

/-- What `cpeRequest` does with one ACS response. -/
inductive CpeAction where
  /-- Empty envelope while not accepting connections: destroy the agent. -/
  | destroyOnly
  /-- Empty envelope: run the session-close logic (`handleMethod(null)`). -/
  | closeSession
  /-- Send a `cwmp:TransferComplete` for the dequeued record. -/
  | sendTransferComplete (r : TransferRecord)
  /-- Send the fault envelope, then destroy the keep-alive agent. -/
  | sendFaultAndDestroy (f : SoapFault)
  /-- Send an empty POST to invite the next server RPC. -/
  | sendEmptyPost
  deriving Repr, DecidableEq

/-- `cpeRequest(requestXml)` from the session module, branch for branch:
empty envelope first (destroy or close), then the pending-transfers shift,
then the `acceptConnections` 9002 rejection, else the empty POST.  Inputs are
the `acceptConnections` flag, the `_transferCompleteSession` flag, the
pending-transfers FIFO and whether the received envelope is non-empty;
outputs the action, the remaining FIFO and the updated flag. -/
def cpeRequest (acceptConnections transferCompleteSession : Bool)
    (q : List TransferRecord) (envelopePresent : Bool) :
    CpeAction × List TransferRecord × Bool :=
  if ¬ envelopePresent then
    if ¬ acceptConnections then (.destroyOnly, q, transferCompleteSession)
    else (.closeSession, q, transferCompleteSession)
  else
    match q with
    | r :: rest => (.sendTransferComplete r, rest, true)
    | [] =>
      if ¬ acceptConnections then
        (.sendFaultAndDestroy
          (createFaultResponse "9002" "Device not ready to accept requests"),
         [], transferCompleteSession)
      else (.sendEmptyPost, [], transferCompleteSession)

/-- The private session flags `handleMethod`'s close branch reads. -/
structure CloseFlags where
  pendingReboot : Bool
  firmwareUpgrade : Bool
  transferCompleteSession : Bool
  pendingInform : Bool
  deriving Repr, DecidableEq

/-- The continuation chosen when a session closes. -/
inductive CloseAction where
  /-- Firmware continuation: bump both SoftwareVersion parameters and start a
  session with the given event after the stop window. -/
  | firmwareBootContinuation (event : String)
  /-- Plain reboot continuation after the stop window. -/
  | rebootContinuation (event : String)
  /-- Arm `nextInformTimeout`: `startSession` with the given event (`none` is
  the `null` argument) after `delayMs` milliseconds. -/
  | scheduleInform (delayMs : Nat) (event : Option String)
  deriving Repr, DecidableEq

/-- The session-close branch of `handleMethod` (`handleMethod(null)`): the
firmware-upgrade continuation when all three flags are set, else the plain
reboot continuation, else arm the periodic-inform timer —
`PeriodicInformInterval` seconds (default 10, `NaN` collapsing to an
immediate timer) or immediately when `pendingInform` is set, with a `null`
event.  Returns the action and the flags after their clearing. -/
def handleMethodClose (dev : Device) (fl : CloseFlags) : CloseAction × CloseFlags :=
  if fl.pendingReboot ∧ fl.firmwareUpgrade ∧ fl.transferCompleteSession then
    (.firmwareBootContinuation "1 BOOT,M Download,4 VALUE CHANGE",
     { fl with pendingReboot := false, firmwareUpgrade := false,
               transferCompleteSession := false })
  else
    let fl1 := { fl with transferCompleteSession := false }
    if fl.pendingReboot then
      (.rebootContinuation "1 BOOT,M Reboot", { fl1 with pendingReboot := false })
    else
      let informInterval : Option Nat :=
        match lookupParam dev.params "Device.ManagementServer.PeriodicInformInterval" with
        | some prm => jsParseIntDec (prm.value.getD "")
        | none =>
          match lookupParam dev.params
              "InternetGatewayDevice.ManagementServer.PeriodicInformInterval" with
          | some prm => jsParseIntDec (prm.value.getD "")
          | none => some 10
      let delay := if fl.pendingInform then 0
        else match informInterval with
          | some k => 1000 * k
          | none => 0
      (.scheduleInform delay none, fl1)

/-- The `EventStruct` codes an Inform built with the given event argument
carries: split on commas, each empty piece (and the `null` event) becoming
`"2 PERIODIC"` (from `inform` in `methods.js`). -/
def informEventCodes : Option String → List String
  | none => ["2 PERIODIC"]
  | some s => (splitOnChar s ',').map (fun ev => if ev = "" then "2 PERIODIC" else ev)

/-- The latest `(value, type)` a `SetParameterValues` request assigns to the
name `n` (`none` when the request never names it); later occurrences win, as
the source's in-order mutation does. -/
def lastPV : List (String × String × String) → String → Option (String × String)
  | [], _ => none
  | x :: rest, n =>
    match lastPV rest n with
    | some r => some r
    | none => if x.1 = n then some x.2 else none

/-- `true` when `pat` occurs contiguously inside `l`. -/
def listContainsSub (l pat : List Char) : Bool :=
  (List.range (l.length + 1)).any (fun i => listStartsWith (l.drop i) pat)

/-- `true` when `pat` is a substring of `s`. -/
def strContainsSub (s pat : String) : Bool :=
  listContainsSub s.toList pat.toList

/-- Declarative characterization of the `NextLevel` filter the code
implements: `parameterPath` is a prefix, `p` is at least two characters
longer, and every dot at or after index `|parameterPath| + 1` is `p`'s final
character. -/
def NextLevelSpec (parameterPath p : String) : Prop :=
  jsStartsWith p parameterPath = true ∧ parameterPath.length + 1 < p.length ∧
  ∀ j, parameterPath.length + 1 ≤ j → p.toList.get? j = some '.' →
    j = p.length - 1

/-- The claim's own `NextLevel` filter, following the specification's words:
paths that start with `ParameterPath` and "contain no further dot after it or
end with a single trailing dot". -/
def specNextLevelKeep (parameterPath p : String) : Bool :=
  jsStartsWith p parameterPath &&
    (!((p.toList.drop parameterPath.length).contains '.') ||
     (((p.toList.drop parameterPath.length).count '.') == 1 &&
      ((p.toList.drop parameterPath.length).getLast? == some '.')))

/-! ## Basic lemmas about the string helpers -/

theorem listStartsWith_nil (l : List Char) : listStartsWith l [] = true := by
  cases l <;> rfl

theorem listStartsWith_self_append (l t : List Char) :
    listStartsWith (l ++ t) l = true := by
  induction l with
  | nil => exact listStartsWith_nil t
  | cons c cs ih => simp [listStartsWith, ih]

theorem string_toList_append (s t : String) :
    (s ++ t).toList = s.toList ++ t.toList := by
  cases s; cases t; rfl

theorem jsStartsWith_self_append (s t : String) :
    jsStartsWith (s ++ t) s = true := by
  unfold jsStartsWith
  rw [string_toList_append]
  exact listStartsWith_self_append _ _

theorem jsStartsWith_self_append₂ (s a b : String) :
    jsStartsWith (s ++ a ++ b) s = true := by
  unfold jsStartsWith
  rw [string_toList_append, string_toList_append, List.append_assoc]
  exact listStartsWith_self_append _ _

theorem listStartsWith_map (f : Char → Char) (l pat : List Char)
    (h : listStartsWith l pat = true) :
    listStartsWith (l.map f) (pat.map f) = true := by
  induction pat generalizing l with
  | nil => exact listStartsWith_nil _
  | cons p ps ih =>
    cases l with
    | nil => simp [listStartsWith] at h
    | cons c cs =>
      rw [listStartsWith, Bool.and_eq_true] at h
      have hcp : c = p := by
        have := h.1
        exact eq_of_beq this
      subst hcp
      simp [listStartsWith, ih cs h.2]

theorem jsStartsWith_toLower_digest (ch : String)
    (h : jsStartsWith ch "Digest" = true) :
    jsStartsWith (strToLower ch) "digest" = true := by
  unfold jsStartsWith at h ⊢
  have h2 : ("digest".toList : List Char) = "Digest".toList.map asciiLower := by decide
  rw [h2]
  exact listStartsWith_map asciiLower _ _ h

/-! ## Basic lemmas about the parameter map -/

theorem lookupParam_append (l1 l2 : ParamMap) (k : String) :
    lookupParam (l1 ++ l2) k =
      match lookupParam l1 k with
      | some v => some v
      | none => lookupParam l2 k := by
  induction l1 with
  | nil => rfl
  | cons kv rest ih => by_cases h : kv.1 = k <;> simp [lookupParam, h, ih]

theorem lookupParam_append_of_isSome {l1 : ParamMap} {k : String} (l2 : ParamMap)
    (h : (lookupParam l1 k).isSome = true) :
    lookupParam (l1 ++ l2) k = lookupParam l1 k := by
  rw [lookupParam_append]
  cases hv : lookupParam l1 k with
  | none => rw [hv] at h; simp at h
  | some v => rfl

theorem lookupParam_append_of_none {l1 : ParamMap} {k : String} (l2 : ParamMap)
    (h : lookupParam l1 k = none) :
    lookupParam (l1 ++ l2) k = lookupParam l2 k := by
  rw [lookupParam_append, h]

theorem lookupParam_updateParam1 (d : ParamMap) (n v t k : String) :
    lookupParam (updateParam1 d n v t) k =
      if n = k then
        (lookupParam d k).map (fun p => ⟨p.writable, some v, some t⟩)
      else lookupParam d k := by
  induction d with
  | nil => by_cases h : n = k <;> simp [updateParam1, lookupParam, h]
  | cons kv rest ih =>
    simp only [updateParam1]
    by_cases h1 : kv.1 = n
    · rw [if_pos h1]
      by_cases h2 : kv.1 = k
      · have hnk : n = k := h1 ▸ h2
        simp [lookupParam, h2, hnk]
      · have hnk : ¬ n = k := fun h => h2 (h1.trans h)
        simp [lookupParam, h2, hnk, ih]
    · rw [if_neg h1]
      by_cases h2 : kv.1 = k
      · have hnk : ¬ n = k := fun h => h1 (h2.trans h.symm)
        simp [lookupParam, h2, hnk]
      · simp [lookupParam, h2, ih]

theorem applyPVs_cons (d : ParamMap) (x : String × String × String)
    (rest : List (String × String × String)) :
    applyPVs d (x :: rest) = applyPVs (updateParam1 d x.1 x.2.1 x.2.2) rest := rfl

theorem applyPVs_lookup (pvs : List (String × String × String)) (d : ParamMap)
    (n : String) :
    lookupParam (applyPVs d pvs) n =
      match lastPV pvs n with
      | none => lookupParam d n
      | some vt => (lookupParam d n).map (fun p => ⟨p.writable, some vt.1, some vt.2⟩) := by
  induction pvs generalizing d with
  | nil => rfl
  | cons x rest ih =>
    rw [applyPVs_cons, ih]
    cases hrest : lastPV rest n with
    | some r =>
      simp [lastPV, hrest, lookupParam_updateParam1]
      by_cases hx : x.1 = n
      · rw [if_pos hx]
        cases lookupParam d n <;> rfl
      · rw [if_neg hx]
    | none =>
      simp [lastPV, hrest, lookupParam_updateParam1]
      by_cases hx : x.1 = n
      · simp [hx]
      · simp [hx]

theorem SetParameterValues_ok (d : ParamMap) (pvs : List (String × String × String))
    (h : ∀ x ∈ pvs, (lookupParam d x.1).isSome = true) :
    SetParameterValues d pvs = .ok (applyPVs d pvs, .setParameterValuesResponse "0") := by
  induction pvs generalizing d with
  | nil => rfl
  | cons x rest ih =>
    have hx := h x (by simp)
    rw [SetParameterValues, if_pos hx, applyPVs_cons]
    refine ih _ (fun y hy => ?_)
    rw [lookupParam_updateParam1]
    by_cases hxy : x.1 = y.1
    · rw [if_pos hxy]
      cases hv : lookupParam d y.1 with
      | none => rw [hxy, hv] at hx; simp at hx
      | some p => simp
    · rw [if_neg hxy]; exact h y (by simp [hy])

/-! ## Claim C1 -/

/-- Claim C1, counterexample: when the retry cap fires (`attempts > 5`), the
worker queues the fault-9010 record `"Too many attempts"` but schedules no
TransferComplete session at all (the `scheduled` component stays empty),
contradicting the claim that every terminal outcome schedules one 500 ms
later. -/
theorem c1_retry_cap_counterexample :
    downloadFileStep (some firmwareFileType) (some "ck") 0 .tooManyAttempts
        ⟨true, true, false, false, [], []⟩ =
      (⟨true, true, false, false, [⟨some "ck", 0, "9010", "Too many attempts"⟩], []⟩,
       .settled) := by
  rfl

/-- Claim C1 (amended): every terminal outcome of the download worker queues
exactly one transfer record, and every terminal outcome except the retry-cap
fault 9010 `"Too many attempts"` also schedules a TransferComplete session
500 ms later; the retry-cap path only queues its record. -/
theorem c1_downloadFileStep_terminal (ft ck : Option String) (t : Nat)
    (ev : DlEvent) (st : DlState) (hterm : ev.isTerminal = true) :
    (∃ r : TransferRecord,
        ((downloadFileStep ft ck t ev st).1).queue = st.queue ++ [r]) ∧
    (¬ ev = .tooManyAttempts →
        ((downloadFileStep ft ck t ev st).1).scheduled =
          st.scheduled ++ [(transferCompleteDelayMs, transferCompleteEvent)]) := by
  cases ev with
  | tooManyAttempts => exact ⟨⟨_, rfl⟩, fun h => absurd rfl h⟩
  | challenge401Basic => simp [DlEvent.isTerminal] at hterm
  | challenge401Digest => simp [DlEvent.isTerminal] at hterm
  | statusNon200 code => exact ⟨⟨_, rfl⟩, fun _ => rfl⟩
  | bodyEnd => exact ⟨⟨_, rfl⟩, fun _ => rfl⟩
  | socketError msg => exact ⟨⟨_, rfl⟩, fun _ => rfl⟩
  | timeoutFired => exact ⟨⟨_, rfl⟩, fun _ => rfl⟩

/-- Witness for `c1_downloadFileStep_terminal` at the firmware success
outcome. -/
theorem c1_downloadFileStep_terminal_witness :
    (∃ r : TransferRecord,
        ((downloadFileStep (some firmwareFileType) (some "ck") 0 .bodyEnd
            ⟨true, true, false, false, [], []⟩).1).queue = [] ++ [r]) ∧
    (¬ DlEvent.bodyEnd = .tooManyAttempts →
        ((downloadFileStep (some firmwareFileType) (some "ck") 0 .bodyEnd
            ⟨true, true, false, false, [], []⟩).1).scheduled =
          [] ++ [(transferCompleteDelayMs, transferCompleteEvent)]) :=
  c1_downloadFileStep_terminal (some firmwareFileType) (some "ck") 0 .bodyEnd
    ⟨true, true, false, false, [], []⟩ rfl

/-! ## Claim C2 -/

/-- Claim C2, counterexample: a non-empty envelope received while
`acceptConnections` is false but with a transfer record pending is answered
with a `cwmp:TransferComplete`, not with the 9002 fault — the pending-transfer
check of `cpeRequest` runs first, contradicting the claimed order. -/
theorem c2_pending_transfer_counterexample :
    cpeRequest false false [⟨some "k", 0, "0", ""⟩] true =
      (.sendTransferComplete ⟨some "k", 0, "0", ""⟩, [], true) := by
  rfl

/-- Claim C2 (amended): with `acceptConnections = false` and a non-empty
envelope, the simulator replies with the SOAP fault envelope
(`faultcode = Client`, `faultstring = "CWMP fault"`, detail `cwmp:Fault`
9002 `"Device not ready to accept requests"`) and then destroys the
keep-alive connection only when no transfer is pending; a pending transfer
is emitted as `cwmp:TransferComplete` first, before the `acceptConnections`
check. -/
theorem c2_cpeRequest_notReady (tcs : Bool) (q : List TransferRecord) :
    (q = [] → cpeRequest false tcs q true =
      (.sendFaultAndDestroy
        ⟨"Client", "CWMP fault", "9002", "Device not ready to accept requests"⟩,
       [], tcs)) ∧
    (∀ r rest, q = r :: rest →
      cpeRequest false tcs q true = (.sendTransferComplete r, rest, true)) := by
  constructor
  · rintro rfl; rfl
  · rintro r rest rfl; rfl

/-- Witness for `c2_cpeRequest_notReady` with an empty queue. -/
theorem c2_cpeRequest_notReady_witness :
    cpeRequest false false [] true =
      (.sendFaultAndDestroy
        ⟨"Client", "CWMP fault", "9002", "Device not ready to accept requests"⟩,
       [], false) :=
  (c2_cpeRequest_notReady false []).1 rfl

/-! ## Claim C3 -/

/-- Claim C3, counterexample: a session closing with `pendingInform` set and
no pending reboot schedules the next session immediately (delay 0), but
`startSession` is invoked with the `null` event, so the next Inform carries
`"2 PERIODIC"` — not `"6 CONNECTION REQUEST"` as claimed. -/
theorem c3_pending_inform_counterexample :
    handleMethodClose
        ⟨[("InternetGatewayDevice.ManagementServer.PeriodicInformInterval",
           ⟨true, some "300", some "xsd:unsignedInt"⟩)], none⟩
        ⟨false, false, false, true⟩ =
      (.scheduleInform 0 none, ⟨false, false, false, true⟩) ∧
    informEventCodes none = ["2 PERIODIC"] ∧
    ¬ informEventCodes none = ["6 CONNECTION REQUEST"] := by
  exact ⟨rfl, rfl, by decide⟩

/-- Claim C3 (amended): for every session that closes with `pendingInform`
set and no pending reboot, the next session is scheduled immediately
(delay 0 ms) and its Inform carries the event `"2 PERIODIC"` (the event
argument is `null`). -/
theorem c3_handleMethodClose_pendingInform (dev : Device) (fl : CloseFlags)
    (hpi : fl.pendingInform = true) (hpr : fl.pendingReboot = false) :
    handleMethodClose dev fl =
      (.scheduleInform 0 none, { fl with transferCompleteSession := false }) ∧
    informEventCodes none = ["2 PERIODIC"] := by
  refine ⟨?_, rfl⟩
  simp [handleMethodClose, hpi, hpr]

/-- Witness for `c3_handleMethodClose_pendingInform`. -/
theorem c3_handleMethodClose_pendingInform_witness :
    handleMethodClose ⟨[], none⟩ ⟨false, false, false, true⟩ =
      (.scheduleInform 0 none, ⟨false, false, false, true⟩) ∧
    informEventCodes none = ["2 PERIODIC"] :=
  c3_handleMethodClose_pendingInform ⟨[], none⟩ ⟨false, false, false, true⟩ rfl rfl

/-! ## Claim C9 -/

/-- Claim C9: a `Download` request with the firmware `FileType` and no URL
element makes the handler throw a `TypeError` (reading a method of `null`)
before any response is sent, and the `_downloadInProgress` flag it set just
before stays `true`: the device state is not restored on this error. -/
theorem c9_download_missing_url_typeerror :
    Download false 0 ⟨some "ck", none, some "1 Firmware Upgrade Image", none, none⟩ =
      (true, .error "TypeError: Cannot read properties of null (reading 'startsWith')") := by
  rfl

/-! ## Claim C10 -/

/-- Claim C10: a `SetParameterValues` request whose names all exist in the
device map succeeds with `Status=0` and updates each named parameter's value
and xsd type in place (the last occurrence winning); the writable flag of
every parameter is unchanged, parameters not named are untouched, and the
update is applied regardless of the stored writable flag — writability is
never consulted. -/
theorem c10_setParameterValues_updates (d : ParamMap)
    (pvs : List (String × String × String))
    (h : ∀ x ∈ pvs, (lookupParam d x.1).isSome = true) :
    SetParameterValues d pvs = .ok (applyPVs d pvs, .setParameterValuesResponse "0") ∧
    (∀ k, (lookupParam (applyPVs d pvs) k).map Param.writable
        = (lookupParam d k).map Param.writable) ∧
    (∀ k, lastPV pvs k = none → lookupParam (applyPVs d pvs) k = lookupParam d k) ∧
    (∀ k v t p, lastPV pvs k = some (v, t) → lookupParam d k = some p →
        lookupParam (applyPVs d pvs) k = some ⟨p.writable, some v, some t⟩) := by
  refine ⟨SetParameterValues_ok d pvs h, ?_, ?_, ?_⟩
  · intro k
    rw [applyPVs_lookup]
    cases hl : lastPV pvs k with
    | none => rfl
    | some vt => cases lookupParam d k <;> rfl
  · intro k hl
    rw [applyPVs_lookup, hl]
  · intro k v t p hl hp
    rw [applyPVs_lookup, hl, hp]
    rfl

/-- Witness for `c10_setParameterValues_updates`: a parameter whose writable
flag is `false` still has its value and type rewritten. -/
theorem c10_setParameterValues_updates_witness :
    SetParameterValues [("X", ⟨false, some "old", some "xsd:string"⟩)]
        [("X", "new", "xsd:int")] =
      .ok ([("X", ⟨false, some "new", some "xsd:int"⟩)],
        .setParameterValuesResponse "0") :=
  (c10_setParameterValues_updates
    [("X", ⟨false, some "old", some "xsd:string"⟩)] [("X", "new", "xsd:int")]
    (by decide)).1

/-! ## Claim C7 -/

theorem setParam_filter_of_prefixed (objectName : String) (d : ParamMap)
    (k : String) (v : Param) (hk : jsStartsWith k objectName = true) :
    (setParam d k v).filter (fun kv => !(jsStartsWith kv.1 objectName)) =
      d.filter (fun kv => !(jsStartsWith kv.1 objectName)) := by
  induction d with
  | nil => simp [setParam, hk]
  | cons kv rest ih =>
    by_cases h : kv.1 = k
    · simp only [setParam, if_pos h]
      rw [List.filter_cons, List.filter_cons]
      simp [hk, h]
    · simp only [setParam, if_neg h]
      rw [List.filter_cons, List.filter_cons]
      cases hkv : !(jsStartsWith kv.1 objectName) <;> simp [ih]

theorem addObjectStep_filter (objectName : String) (i : Nat) (acc : ParamMap)
    (p : String) :
    (addObjectStep objectName i acc p).filter (fun kv => !(jsStartsWith kv.1 objectName)) =
      acc.filter (fun kv => !(jsStartsWith kv.1 objectName)) := by
  unfold addObjectStep
  split
  · split
    · rfl
    · split
      · rfl
      · rw [List.filter_append]
        have hpref : jsStartsWith (objectName ++ Nat.repr i ++ addObjectSuffix objectName p)
            objectName = true := jsStartsWith_self_append₂ _ _ _
        simp [hpref]
  · rfl

theorem addObjectCopies_filter (objectName : String) (i : Nat) (paths : List String)
    (acc : ParamMap) :
    (addObjectCopies objectName i acc paths).filter
        (fun kv => !(jsStartsWith kv.1 objectName)) =
      acc.filter (fun kv => !(jsStartsWith kv.1 objectName)) := by
  induction paths generalizing acc with
  | nil => rfl
  | cons p rest ih =>
    show (addObjectCopies objectName i (addObjectStep objectName i acc p) rest).filter _ = _
    rw [ih, addObjectStep_filter]

/-- Claim C7, counterexample: `AddObject "A."` followed by `DeleteObject "A."`
on a device whose only key is `"A."` leaves an empty map — the prior key set
`["A."]` is not restored, because `DeleteObject` removes every key with the
prefix, the template keys included. -/
theorem c7_add_delete_counterexample :
    ((DeleteObject (AddObject ⟨[("A.", ⟨true, none, none⟩)], none⟩ "A.").1 "A.").1).params.map
        Prod.fst = ([] : List String) ∧
    ¬ ([("A.", (⟨true, none, none⟩ : Param))] : ParamMap).map Prod.fst = ([] : List String) := by
  exact ⟨rfl, by decide⟩

/-- Claim C7 (amended): `AddObject` on `objectName` followed by `DeleteObject`
on the same `objectName` leaves the parameter map equal to its prior state
with every entry whose key starts with `objectName` removed (every key
`AddObject` creates carries the `objectName` prefix, and `DeleteObject`
removes all keys with that prefix, pre-existing ones included); the prior key
set is recovered exactly when no prior key had the prefix. -/
theorem c7_addObject_deleteObject_key_set (dev : Device) (objectName : String) :
    ((DeleteObject (AddObject dev objectName).1 objectName).1).params =
      dev.params.filter (fun kv => !(jsStartsWith kv.1 objectName)) := by
  have h1 : ((DeleteObject (AddObject dev objectName).1 objectName).1).params =
      ((AddObject dev objectName).1).params.filter
        (fun kv => !(jsStartsWith kv.1 objectName)) := rfl
  have h2 : ((AddObject dev objectName).1).params =
      addObjectCopies objectName (addObjectInstance dev objectName)
        (addObjectBase dev objectName) (addObjectPaths dev objectName) := rfl
  rw [h1, h2, addObjectCopies_filter]
  exact setParam_filter_of_prefixed objectName dev.params _ _
    (jsStartsWith_self_append₂ _ _ _)

/-! ## Claim C5 -/

set_option maxRecDepth 8192 in
/-- Claim C5, counterexample: at `nonceCount = 10` the generated header's nc
field is the zero-padded decimal `"00000010"`, while the zero-padded 8-digit
hexadecimal of 10 is `"0000000a"`, which occurs nowhere in the header —
refuting the claim at this input (`md5` instantiated with the identity, which
the nc field does not depend on). -/
theorem c5_nc_hex_counterexample :
    strContainsSub
        (generateDigestAuth (fun s => s) "u" "pw" "GET" "/"
          ⟨"r", "n", "auth", "", "MD5"⟩ "cn" 10) "nc=00000010" = true ∧
    hexPad8 10 = "0000000a" ∧
    strContainsSub
        (generateDigestAuth (fun s => s) "u" "pw" "GET" "/"
          ⟨"r", "n", "auth", "", "MD5"⟩ "cn" 10) ("nc=" ++ hexPad8 10) = false := by
  refine ⟨?_, ?_, ?_⟩ <;> decide

/-- Claim C5 (amended): for every positive `nonceCount`, when the challenge
carries a `qop`, the emitted nc field is the zero-padded 8-digit *decimal*
representation of `nonceCount` (`String(nc).padStart(8, "0")`), which
coincides with the hexadecimal form only for `nonceCount ≤ 9`. -/
theorem c5_generateDigestAuth_nc_decimal (md5 : String → String)
    (username password method uri cnonce : String) (dp : DigestParams) (nc : Nat)
    (hq : ¬ dp.qop = "") :
    ∃ h, generateDigestAuth md5 username password method uri dp cnonce nc =
      h ++ ", nc=" ++ padZeros8 (Nat.repr nc) ++ ", cnonce=\"" ++ cnonce ++ "\"" := by
  refine ⟨digestHeaderBase md5 username password method uri cnonce dp nc ++
    ", qop=" ++ dp.qop, ?_⟩
  unfold generateDigestAuth
  rw [if_neg hq]

/-- Witness for `c5_generateDigestAuth_nc_decimal`. -/
theorem c5_generateDigestAuth_nc_decimal_witness :
    ∃ h, generateDigestAuth (fun s => s) "u" "pw" "GET" "/"
        ⟨"r", "n", "auth", "", "MD5"⟩ "cn" 1 =
      h ++ ", nc=" ++ padZeros8 (Nat.repr 1) ++ ", cnonce=\"" ++ "cn" ++ "\"" :=
  c5_generateDigestAuth_nc_decimal (fun s => s) "u" "pw" "GET" "/" "cn"
    ⟨"r", "n", "auth", "", "MD5"⟩ 1 (by decide)

/-! ## Claim C6 -/

/-- Claim C6: on a 401 whose `WWW-Authenticate` starts with `"Digest"`, the
transport stores the parsed challenge in `_digestParams`, resets
`_nonceCount` to 0 and retransmits the byte-identical body; the retry's
`Authorization` header (with credentials present) is the digest built from
the parsed challenge with the nonce count incremented to 1.  A 401 whose
challenge is not Digest (case-insensitively), or carries no challenge at
all, throws a fatal error. -/
theorem c6_sendRequest_401_digest (st : AuthState) (body : String)
    (resp : HttpResponse) (h401 : resp.statusCode = 401) :
    (∀ ch, resp.wwwAuthenticate = some ch → jsStartsWith ch "Digest" = true →
      sendRequestHandleResponse st body resp =
        .retry { st with digestParams := some (parseDigestHeader ch), nonceCount := 0 }
          body ∧
      (¬ st.username = "" → ¬ st.password = "" →
        ∀ (md5 : String → String) (cnonce m uri : String),
        (getAuthorizationHeader md5 cnonce
            { st with digestParams := some (parseDigestHeader ch), nonceCount := 0 }
            m uri).2.nonceCount = 1 ∧
        (getAuthorizationHeader md5 cnonce
            { st with digestParams := some (parseDigestHeader ch), nonceCount := 0 }
            m uri).1 =
          generateDigestAuth md5 st.username st.password
            (if m = "" then "POST" else m) (if uri = "" then "/" else uri)
            (parseDigestHeader ch) cnonce 1)) ∧
    (∀ ch, resp.wwwAuthenticate = some ch →
      jsStartsWith (strToLower ch) "digest" = false →
      sendRequestHandleResponse st body resp =
        .fatal "Authentication failed with status 401") ∧
    (resp.wwwAuthenticate = none →
      sendRequestHandleResponse st body resp =
        .fatal "Authentication failed with status 401") := by
  refine ⟨?_, ?_, ?_⟩
  · intro ch hch hdig
    refine ⟨?_, ?_⟩
    · simp [sendRequestHandleResponse, h401, hch, jsStartsWith_toLower_digest ch hdig]
    · intro hu hp md5 cnonce m uri
      constructor
      · simp [getAuthorizationHeader, hu, hp]
      · simp [getAuthorizationHeader, hu, hp]
  · intro ch hch hnodig
    simp [sendRequestHandleResponse, h401, hch, hnodig]
  · intro hnone
    simp [sendRequestHandleResponse, h401, hnone]

/-- Witness for `c6_sendRequest_401_digest` on a concrete digest challenge. -/
theorem c6_sendRequest_401_digest_witness :
    sendRequestHandleResponse ⟨"usertest", "passtest", none, 0, none⟩ "<x/>"
        ⟨401, some "Digest realm=\"r\", nonce=\"n\", qop=auth", none, "", none⟩ =
      .retry ⟨"usertest", "passtest",
          some (parseDigestHeader "Digest realm=\"r\", nonce=\"n\", qop=auth"), 0, none⟩
        "<x/>" ∧
    (getAuthorizationHeader (fun s => s) "cn"
        ⟨"usertest", "passtest",
          some (parseDigestHeader "Digest realm=\"r\", nonce=\"n\", qop=auth"), 0, none⟩
        "POST" "/acs").2.nonceCount = 1 := by
  have h := c6_sendRequest_401_digest ⟨"usertest", "passtest", none, 0, none⟩ "<x/>"
    ⟨401, some "Digest realm=\"r\", nonce=\"n\", qop=auth", none, "", none⟩ rfl
  have h1 := h.1 "Digest realm=\"r\", nonce=\"n\", qop=auth" rfl (by decide)
  exact ⟨h1.1, (h1.2 (by decide) (by decide) (fun s => s) "cn" "POST" "/acs").1⟩

/-! ## Claim C4 -/

theorem addObjectStep_preserves_some (objectName : String) (i : Nat) (acc : ParamMap)
    (p k : String) (v : Param) (h : lookupParam acc k = some v) :
    lookupParam (addObjectStep objectName i acc p) k = some v := by
  unfold addObjectStep
  split
  · split
    · exact h
    · split
      · exact h
      · rw [lookupParam_append_of_isSome _ (by rw [h]; rfl)]
        exact h
  · exact h

theorem addObjectCopies_preserves_some (objectName : String) (i : Nat) (k : String)
    (v : Param) :
    ∀ (paths : List String) (acc : ParamMap), lookupParam acc k = some v →
      lookupParam (addObjectCopies objectName i acc paths) k = some v := by
  intro paths
  induction paths with
  | nil => intro acc h; exact h
  | cons q rest ih =>
    intro acc h
    exact ih _ (addObjectStep_preserves_some objectName i acc q k v h)

theorem addObjectStep_cases (objectName : String) (i : Nat) (acc : ParamMap)
    (q : String) :
    addObjectStep objectName i acc q = acc ∨
    ((jsStartsWith q objectName = true ∧ objectName.length < q.length) ∧
      ∃ w, addObjectStep objectName i acc q =
        acc ++ [(objectName ++ Nat.repr i ++ addObjectSuffix objectName q, w)]) := by
  unfold addObjectStep
  split
  · split
    · exact Or.inl rfl
    · split
      · exact Or.inl rfl
      · exact Or.inr ⟨‹_›, _, rfl⟩
  · exact Or.inl rfl

theorem addObjectCopies_creates (objectName : String) (i : Nat) (base : ParamMap)
    (p : String) (tpl : Param)
    (hguard : jsStartsWith p objectName = true ∧ objectName.length < p.length)
    (htpl : lookupParam base p = some tpl) :
    ∀ (paths : List String) (acc ext : ParamMap), acc = base ++ ext →
      lookupParam acc (objectName ++ Nat.repr i ++ addObjectSuffix objectName p) = none →
      p ∈ paths →
      (∀ q ∈ paths, (jsStartsWith q objectName = true ∧ objectName.length < q.length) →
        objectName ++ Nat.repr i ++ addObjectSuffix objectName q =
          objectName ++ Nat.repr i ++ addObjectSuffix objectName p → q = p) →
      lookupParam (addObjectCopies objectName i acc paths)
          (objectName ++ Nat.repr i ++ addObjectSuffix objectName p) =
        some ⟨tpl.writable, some (defaultValue tpl.ty), tpl.ty⟩ := by
  intro paths
  induction paths with
  | nil =>
    intro acc ext hacc hfresh hp huniq
    simp at hp
  | cons q rest ih =>
    intro acc ext hacc hfresh hp huniq
    by_cases hqp : q = p
    · subst hqp
      have hlk : lookupParam acc q = some tpl := by
        rw [hacc, lookupParam_append_of_isSome _ (by rw [htpl]; rfl)]
        exact htpl
      have hstep : addObjectStep objectName i acc q =
          acc ++ [(objectName ++ Nat.repr i ++ addObjectSuffix objectName q,
            ⟨tpl.writable, some (defaultValue tpl.ty), tpl.ty⟩)] := by
        unfold addObjectStep
        rw [if_pos hguard, hlk]
        simp [hfresh]
      have hrec : addObjectCopies objectName i acc (q :: rest) =
          addObjectCopies objectName i (addObjectStep objectName i acc q) rest := rfl
      rw [hrec, hstep]
      apply addObjectCopies_preserves_some
      rw [lookupParam_append_of_none _ hfresh]
      simp [lookupParam]
    · have hp' : p ∈ rest := by
        rcases List.mem_cons.mp hp with h | h
        · exact absurd h.symm hqp
        · exact h
      have huniq' : ∀ q' ∈ rest,
          (jsStartsWith q' objectName = true ∧ objectName.length < q'.length) →
          objectName ++ Nat.repr i ++ addObjectSuffix objectName q' =
            objectName ++ Nat.repr i ++ addObjectSuffix objectName p → q' = p :=
        fun q' hq' => huniq q' (List.mem_cons_of_mem _ hq')
      have hrec : addObjectCopies objectName i acc (q :: rest) =
          addObjectCopies objectName i (addObjectStep objectName i acc q) rest := rfl
      rw [hrec]
      rcases addObjectStep_cases objectName i acc q with hstep | ⟨hg, w, hstep⟩
      · rw [hstep]
        exact ih acc ext hacc hfresh hp' huniq'
      · have hnk : ¬ (objectName ++ Nat.repr i ++ addObjectSuffix objectName q =
            objectName ++ Nat.repr i ++ addObjectSuffix objectName p) :=
          fun he => hqp (huniq q (List.mem_cons_self _ _) hg he)
        rw [hstep]
        refine ih _ (ext ++ [(objectName ++ Nat.repr i ++ addObjectSuffix objectName q, w)])
          (by rw [hacc, List.append_assoc]) ?_ hp' huniq'
        rw [lookupParam_append_of_none _ hfresh]
        simp [lookupParam, hnk]

/-- Claim C4, counterexample: on a device holding only the template object
`"A."` and the leaf `"A.Leaf"`, `AddObject "A."` responds `InstanceNumber=1`
but creates neither `"A.1Leaf"` (the claim's `<objectName><i><leaf>`) nor
`"A.1.Leaf"`: since `"A.Leaf"` has no dot at or after index
`|objectName| = 2`, the source's `p.slice(p.indexOf(".", objectName.length))`
falls back to `slice(-1)` and creates the mangled key `"A.1f"` instead. -/
theorem c4_addObject_leaf_counterexample :
    (AddObject ⟨[("A.", ⟨true, none, none⟩),
        ("A.Leaf", ⟨true, some "x", some "xsd:string"⟩)], none⟩ "A.").2 =
      .addObjectResponse "1" "0" ∧
    lookupParam (AddObject ⟨[("A.", ⟨true, none, none⟩),
        ("A.Leaf", ⟨true, some "x", some "xsd:string"⟩)], none⟩ "A.").1.params
      "A.1Leaf" = none ∧
    lookupParam (AddObject ⟨[("A.", ⟨true, none, none⟩),
        ("A.Leaf", ⟨true, some "x", some "xsd:string"⟩)], none⟩ "A.").1.params
      "A.1.Leaf" = none ∧
    lookupParam (AddObject ⟨[("A.", ⟨true, none, none⟩),
        ("A.Leaf", ⟨true, some "x", some "xsd:string"⟩)], none⟩ "A.").1.params
      "A.1f" = some ⟨true, some "", some "xsd:string"⟩ := by
  refine ⟨?_, ?_, ?_, ?_⟩ <;> decide

/-- Claim C4 (amended): after `AddObject` on `objectName` responds
`InstanceNumber = i`, every template path `p` in the iterated sorted path
list that properly extends `objectName` yields the key
`<objectName><i><suffix>` — where `suffix` is `p` from its first dot at or
after index `|objectName|` (or `p`'s final character when no such dot
exists) — holding the template's writable flag and type and the
type-appropriate default value (`"false"`/`"0"`/`"0001-01-01T00:00:00Z"`/`""`),
provided that key was not already taken and no other template path maps to
the same key. -/
theorem c4_addObject_template_copy (dev : Device) (objectName p : String) (tpl : Param)
    (hp : p ∈ addObjectPaths dev objectName)
    (hguard : jsStartsWith p objectName = true ∧ objectName.length < p.length)
    (htpl : lookupParam (addObjectBase dev objectName) p = some tpl)
    (hfresh : lookupParam (addObjectBase dev objectName)
        (addObjectNewKey dev objectName p) = none)
    (huniq : ∀ q ∈ addObjectPaths dev objectName,
      (jsStartsWith q objectName = true ∧ objectName.length < q.length) →
      addObjectNewKey dev objectName q = addObjectNewKey dev objectName p → q = p) :
    lookupParam ((AddObject dev objectName).1).params (addObjectNewKey dev objectName p) =
      some ⟨tpl.writable, some (defaultValue tpl.ty), tpl.ty⟩ := by
  have hparams : ((AddObject dev objectName).1).params =
      addObjectCopies objectName (addObjectInstance dev objectName)
        (addObjectBase dev objectName) (addObjectPaths dev objectName) := rfl
  rw [hparams]
  exact addObjectCopies_creates objectName (addObjectInstance dev objectName)
    (addObjectBase dev objectName) p tpl hguard htpl (addObjectPaths dev objectName)
    (addObjectBase dev objectName) [] (by simp) hfresh hp huniq

/-- Witness for `c4_addObject_template_copy`: the device already holds
instance 1 with leaf `"A.1.Name"`; `AddObject "A."` picks `i = 2` and creates
`"A.2.Name"` with the default `""` and the template's writable flag and
type. -/
theorem c4_addObject_template_copy_witness :
    lookupParam ((AddObject ⟨[("A.", ⟨true, none, none⟩),
        ("A.1.", ⟨true, none, none⟩),
        ("A.1.Name", ⟨true, some "x", some "xsd:string"⟩)], none⟩ "A.").1).params
      (addObjectNewKey ⟨[("A.", ⟨true, none, none⟩),
        ("A.1.", ⟨true, none, none⟩),
        ("A.1.Name", ⟨true, some "x", some "xsd:string"⟩)], none⟩ "A." "A.1.Name") =
      some ⟨true, some "", some "xsd:string"⟩ :=
  c4_addObject_template_copy
    ⟨[("A.", ⟨true, none, none⟩), ("A.1.", ⟨true, none, none⟩),
      ("A.1.Name", ⟨true, some "x", some "xsd:string"⟩)], none⟩
    "A." "A.1.Name" ⟨true, some "x", some "xsd:string"⟩
    (by decide) (by decide) (by decide) (by decide) (by decide)

/-! ## Claim C8 -/

theorem firstIdxFrom_none_iff (cs : List Char) (c : Char) :
    firstIdxFrom cs c = none ↔ ∀ j, ¬ cs.get? j = some c := by
  induction cs with
  | nil => simp [firstIdxFrom]
  | cons x xs ih =>
    rw [firstIdxFrom]
    by_cases hx : x = c
    · rw [if_pos hx]
      constructor
      · intro h; cases h
      · intro h; exact absurd (show (x :: xs).get? 0 = some c by simp [hx]) (h 0)
    · rw [if_neg hx]
      constructor
      · intro h j
        have hxs : firstIdxFrom xs c = none := by
          cases hfx : firstIdxFrom xs c
          · rfl
          · rw [hfx] at h; simp at h
        cases j with
        | zero => simp [hx]
        | succ n => simpa using (ih.mp hxs) n
      · intro h
        have hxs : firstIdxFrom xs c = none :=
          ih.mpr (fun j => by simpa using h (j + 1))
        rw [hxs]; rfl

theorem firstIdxFrom_some (cs : List Char) (c : Char) (j : Nat)
    (h : firstIdxFrom cs c = some j) :
    cs.get? j = some c ∧ ∀ k, k < j → ¬ cs.get? k = some c := by
  induction cs generalizing j with
  | nil => simp [firstIdxFrom] at h
  | cons x xs ih =>
    rw [firstIdxFrom] at h
    by_cases hx : x = c
    · rw [if_pos hx] at h
      have hj : j = 0 := (Option.some.inj h).symm
      subst hj
      exact ⟨by simp [hx], fun k hk => by omega⟩
    · rw [if_neg hx] at h
      cases hfx : firstIdxFrom xs c with
      | none => rw [hfx] at h; simp at h
      | some m =>
        rw [hfx] at h
        simp only [Option.map_some'] at h
        have hj : j = m + 1 := (Option.some.inj h).symm
        subst hj
        obtain ⟨h1, h2⟩ := ih m hfx
        refine ⟨by simpa using h1, ?_⟩
        intro k hk
        cases k with
        | zero => simp [hx]
        | succ n => simpa using h2 n (by omega)

theorem indexOfFrom_none_iff (p : String) (c : Char) (start : Nat) :
    indexOfFrom p c start = none ↔
      ∀ j, start ≤ j → ¬ p.toList.get? j = some c := by
  unfold indexOfFrom
  constructor
  · intro h j hj hget
    have hn : firstIdxFrom (p.toList.drop start) c = none := by
      cases hfx : firstIdxFrom (p.toList.drop start) c
      · rfl
      · rw [hfx] at h; simp at h
    obtain ⟨m, rfl⟩ := Nat.le.dest hj
    exact (firstIdxFrom_none_iff _ _).mp hn m (by rw [List.get?_drop]; exact hget)
  · intro h
    have hn : firstIdxFrom (p.toList.drop start) c = none :=
      (firstIdxFrom_none_iff _ _).mpr (fun m => by
        rw [List.get?_drop]
        exact h (start + m) (Nat.le_add_right _ _))
    rw [hn]; rfl

theorem indexOfFrom_some_spec (p : String) (c : Char) (start j : Nat)
    (h : indexOfFrom p c start = some j) :
    start ≤ j ∧ p.toList.get? j = some c ∧
      ∀ k, start ≤ k → k < j → ¬ p.toList.get? k = some c := by
  unfold indexOfFrom at h
  cases hfx : firstIdxFrom (p.toList.drop start) c with
  | none => rw [hfx] at h; simp at h
  | some m =>
    rw [hfx] at h
    simp only [Option.map_some'] at h
    have hj : j = m + start := (Option.some.inj h).symm
    subst hj
    obtain ⟨h1, h2⟩ := firstIdxFrom_some _ _ _ hfx
    rw [List.get?_drop] at h1
    refine ⟨Nat.le_add_left _ _, by rw [Nat.add_comm] at h1; exact h1, ?_⟩
    intro k hk hkj
    obtain ⟨d, rfl⟩ := Nat.le.dest hk
    have hd : d < m := by omega
    have := h2 d hd
    rw [List.get?_drop] at this
    exact this

theorem string_length_toList (s : String) : s.length = s.toList.length := rfl

theorem gpnKeepNext_iff (parameterPath p : String) :
    gpnKeepNext parameterPath p = true ↔ NextLevelSpec parameterPath p := by
  unfold gpnKeepNext NextLevelSpec
  constructor
  · intro h
    rw [Bool.and_eq_true, Bool.and_eq_true] at h
    obtain ⟨⟨h1, h2⟩, h3⟩ := h
    have h2' : parameterPath.length + 1 < p.length := by simpa using h2
    refine ⟨h1, h2', ?_⟩
    intro j hj hget
    cases hidx : indexOfFrom p '.' (parameterPath.length + 1) with
    | none => exact absurd hget ((indexOfFrom_none_iff _ _ _).mp hidx j hj)
    | some m =>
      rw [hidx] at h3
      have hm : m = p.length - 1 := by simpa using h3
      obtain ⟨hm1, hm2, hm3⟩ := indexOfFrom_some_spec _ _ _ _ hidx
      by_cases hjm : j < m
      · exact absurd hget (hm3 j hj hjm)
      · have hjlen : j < p.toList.length := by
          rcases List.get?_eq_some.mp hget with ⟨hlt, _⟩
          exact hlt
        have hlen : p.length = p.toList.length := rfl
        omega
  · rintro ⟨h1, h2, h3⟩
    rw [Bool.and_eq_true, Bool.and_eq_true]
    refine ⟨⟨h1, by simpa using h2⟩, ?_⟩
    cases hidx : indexOfFrom p '.' (parameterPath.length + 1) with
    | none => rfl
    | some m =>
      obtain ⟨hm1, hm2, hm3⟩ := indexOfFrom_some_spec _ _ _ _ hidx
      simpa using h3 m hm1 hm2

theorem gpnSelect_cons_true (parameterPath q : String) (rest : List String) :
    gpnSelect parameterPath true (q :: rest) =
      if gpnKeepNext parameterPath q then q :: gpnSelect parameterPath true rest
      else gpnSelect parameterPath true rest := by
  rw [gpnSelect]
  rfl

theorem gpnSelect_cons_false (parameterPath q : String) (rest : List String) :
    gpnSelect parameterPath false (q :: rest) =
      if jsStartsWith q parameterPath then q :: gpnSelect parameterPath false rest
      else gpnSelect parameterPath false rest := by
  rw [gpnSelect]
  rfl

theorem gpnSelect_mem_true (parameterPath : String) (paths : List String) (p : String) :
    p ∈ gpnSelect parameterPath true paths ↔
      p ∈ paths ∧ gpnKeepNext parameterPath p = true := by
  induction paths with
  | nil => simp [gpnSelect]
  | cons q rest ih =>
    rw [gpnSelect_cons_true]
    by_cases hq : gpnKeepNext parameterPath q = true
    · rw [if_pos hq]
      simp only [List.mem_cons, ih]
      constructor
      · rintro (rfl | ⟨h1, h2⟩)
        · exact ⟨Or.inl rfl, hq⟩
        · exact ⟨Or.inr h1, h2⟩
      · rintro ⟨(rfl | h1), h2⟩
        · exact Or.inl rfl
        · exact Or.inr ⟨h1, h2⟩
    · rw [if_neg hq, ih]
      constructor
      · rintro ⟨h1, h2⟩
        exact ⟨List.mem_cons_of_mem _ h1, h2⟩
      · rintro ⟨h1, h2⟩
        rcases List.mem_cons.mp h1 with rfl | h1'
        · exact absurd h2 hq
        · exact ⟨h1', h2⟩

theorem gpnSelect_mem_false (parameterPath : String) (paths : List String) (p : String) :
    p ∈ gpnSelect parameterPath false paths ↔
      p ∈ paths ∧ jsStartsWith p parameterPath = true := by
  induction paths with
  | nil => simp [gpnSelect]
  | cons q rest ih =>
    rw [gpnSelect_cons_false]
    by_cases hq : jsStartsWith q parameterPath = true
    · rw [if_pos hq]
      simp only [List.mem_cons, ih]
      constructor
      · rintro (rfl | ⟨h1, h2⟩)
        · exact ⟨Or.inl rfl, hq⟩
        · exact ⟨Or.inr h1, h2⟩
      · rintro ⟨(rfl | h1), h2⟩
        · exact Or.inl rfl
        · exact Or.inr ⟨h1, h2⟩
    · rw [if_neg hq, ih]
      constructor
      · rintro ⟨h1, h2⟩
        exact ⟨List.mem_cons_of_mem _ h1, h2⟩
      · rintro ⟨h1, h2⟩
        rcases List.mem_cons.mp h1 with rfl | h1'
        · exact absurd h2 hq
        · exact ⟨h1', h2⟩

/-- Claim C8, counterexample: on a device with the single-character leaf
`"A.B"`, `GetParameterNames("A.", NextLevel=true)` returns the empty list
even though `"A.B"` is a cached path that starts with `"A."` and contains no
further dot — the source additionally requires
`p.length > parameterPath.length + 1`, which excludes it. -/
theorem c8_single_char_child_counterexample :
    gpnNames ⟨[("A.", ⟨true, none, none⟩),
        ("A.B", ⟨true, some "x", some "xsd:string"⟩)], none⟩ "A." true = [] ∧
    "A.B" ∈ (getSortedPaths ⟨[("A.", ⟨true, none, none⟩),
        ("A.B", ⟨true, some "x", some "xsd:string"⟩)], none⟩).1 ∧
    specNextLevelKeep "A." "A.B" = true := by
  refine ⟨?_, ?_, ?_⟩ <;> decide

/-- Claim C8 (amended): with `NextLevel = true` the returned list holds
exactly the cached sorted non-private paths `p` such that `ParameterPath` is
a prefix, `|p| > |ParameterPath| + 1`, and every dot at or after index
`|ParameterPath| + 1` is `p`'s final character (so a path one character
longer than the prefix is excluded); with `NextLevel = false` it holds
exactly every cached path with that prefix. -/
theorem c8_getParameterNames_exact (dev : Device) (parameterPath p : String) :
    (p ∈ gpnNames dev parameterPath true ↔
      p ∈ (getSortedPaths dev).1 ∧ NextLevelSpec parameterPath p) ∧
    (p ∈ gpnNames dev parameterPath false ↔
      p ∈ (getSortedPaths dev).1 ∧ jsStartsWith p parameterPath = true) := by
  constructor
  · unfold gpnNames
    rw [gpnSelect_mem_true, gpnKeepNext_iff]
  · unfold gpnNames
    rw [gpnSelect_mem_false]

end GenieacsSim
